import Mathlib

/-!
Shallow embedding of the installer configuration model of pve-installer
(proxmox-tui-installer): src/proxmox-tui-installer/src/utils.rs (CidrAddress)
and src/proxmox-tui-installer/src/options.rs (disk/option groups, summary).

The Rust code calls the standard library for IP-address parsing/formatting
and usize parsing/formatting; those dependencies are modelled here first,
matching the observable behaviour of the std implementations on a 64-bit
target (usize = u64).
-/

/- ===== Model of std: integer parsing (usize::from_str, 64-bit) ===== -/

deriving instance DecidableEq for Except

/-- Error kinds of std ParseIntError relevant to parsing a usize. -/
inductive ParseIntError
  | empty
  | invalidDigit
  | posOverflow
deriving DecidableEq

/-- Digit-accumulation loop of std from_str_radix for usize: each step
rejects a non-digit character, and overflow past 2 ^ 64 - 1 is an error. -/
def parseUsizeDigits : List Char → Nat → Except ParseIntError Nat
  | [], acc => .ok acc
  | c :: cs, acc =>
    if '0' ≤ c ∧ c ≤ '9' then
      let acc2 := acc * 10 + (c.toNat - 48)
      if acc2 < 2 ^ 64 then parseUsizeDigits cs acc2 else .error .posOverflow
    else .error .invalidDigit

/-- Model of usize::from_str: empty input is an error, a single leading plus
sign is allowed, a minus sign is not stripped for an unsigned type. -/
def parseUsize (s : List Char) : Except ParseIntError Nat :=
  match s with
  | [] => .error .empty
  | c :: cs =>
    if c = '+' then
      if cs = [] then .error .invalidDigit else parseUsizeDigits cs 0
    else parseUsizeDigits s 0

/- ===== Model of std: IP addresses ===== -/

/-- Opaque stand-in for std AddrParseError (it carries no public data). -/
inductive AddrParseError
  | invalid
deriving DecidableEq

/-- Four octets of an IPv4 address (each in 0..=255 for values produced by a
successful parse). -/
structure Ipv4Addr where
  o1 : Nat
  o2 : Nat
  o3 : Nat
  o4 : Nat
deriving DecidableEq

/-- Ipv4Addr::UNSPECIFIED, i.e. 0.0.0.0. -/
def Ipv4Addr.unspecified : Ipv4Addr := ⟨0, 0, 0, 0⟩

/-- Eight 16-bit segments of an IPv6 address. -/
structure Ipv6Addr where
  s1 : Nat
  s2 : Nat
  s3 : Nat
  s4 : Nat
  s5 : Nat
  s6 : Nat
  s7 : Nat
  s8 : Nat
deriving DecidableEq

/-- std net::IpAddr. -/
inductive IpAddr
  | v4 (a : Ipv4Addr)
  | v6 (a : Ipv6Addr)
deriving DecidableEq

/-- Split a character list at every occurrence of the separator. -/
def splitOnChar (sep : Char) : List Char → List (List Char)
  | [] => [[]]
  | c :: cs =>
    if c = sep then [] :: splitOnChar sep cs
    else
      match splitOnChar sep cs with
      | [] => [[c]]
      | p :: ps => (c :: p) :: ps

/-- Model of one dotted-decimal IPv4 octet as accepted by std: one to three
decimal digits, no leading zero, value at most 255. -/
def parseOctetStr (s : List Char) : Option Nat :=
  match s with
  | [] => none
  | ['0'] => some 0
  | '0' :: _ :: _ => none
  | _ =>
    if s.length ≤ 3 ∧ s.all (fun c => decide ('0' ≤ c ∧ c ≤ '9')) then
      let v := s.foldl (fun acc c => acc * 10 + (c.toNat - 48)) 0
      if v ≤ 255 then some v else none
    else none

/-- Model of std Ipv4Addr::from_str on the whole input: exactly four octet
fields separated by dots. -/
def parseIpv4 (s : List Char) : Option Ipv4Addr :=
  match splitOnChar '.' s with
  | [p1, p2, p3, p4] => do
    let a ← parseOctetStr p1
    let b ← parseOctetStr p2
    let c ← parseOctetStr p3
    let d ← parseOctetStr p4
    pure ⟨a, b, c, d⟩
  | _ => none

/-- Value of a hexadecimal digit character, if any. -/
def hexVal (c : Char) : Option Nat :=
  if '0' ≤ c ∧ c ≤ '9' then some (c.toNat - 48)
  else if 'a' ≤ c ∧ c ≤ 'f' then some (c.toNat - 87)
  else if 'A' ≤ c ∧ c ≤ 'F' then some (c.toNat - 55)
  else none

/-- One IPv6 group: one to four hexadecimal digits. -/
def parseHexGroup (s : List Char) : Option Nat :=
  if s = [] ∨ s.length > 4 then none
  else
    s.foldl
      (fun acc c =>
        match acc, hexVal c with
        | some a, some v => some (a * 16 + v)
        | _, _ => none)
      (some 0)

/-- IPv6 groups read after the double colon (or the full group list when
there is none); a trailing dotted-decimal IPv4 part counts as two groups. -/
def parseTailGroups : List (List Char) → Option (List Nat)
  | [] => some []
  | [p] =>
    if p.contains '.' then
      (parseIpv4 p).map (fun a => [a.o1 * 256 + a.o2, a.o3 * 256 + a.o4])
    else (parseHexGroup p).map ([·])
  | p :: ps => do
    let g ← parseHexGroup p
    let gs ← parseTailGroups ps
    pure (g :: gs)

/-- Split a character list at the first occurrence of a double colon. -/
def splitOnDoubleColon : List Char → Option (List Char × List Char)
  | ':' :: ':' :: rest => some ([], rest)
  | c :: rest => (splitOnDoubleColon rest).map (fun p => (c :: p.1, p.2))
  | [] => none

/-- Build an address from exactly eight segments. -/
def segsToIpv6 : List Nat → Option Ipv6Addr
  | [a, b, c, d, e, f, g, h] => some ⟨a, b, c, d, e, f, g, h⟩
  | _ => none

/-- Model of std Ipv6Addr::from_str: colon-separated hexadecimal groups, at
most one double colon standing for the elided zero groups, an optional
embedded IPv4 part in final position. -/
def parseIpv6 (s : List Char) : Option Ipv6Addr :=
  match splitOnDoubleColon s with
  | some (l, r) =>
    let headGroups := if l = [] then some [] else (splitOnChar ':' l).mapM parseHexGroup
    let tailGroups := if r = [] then some [] else parseTailGroups (splitOnChar ':' r)
    match headGroups, tailGroups with
    | some hg, some tg =>
      if hg.length + tg.length ≤ 7 then
        segsToIpv6 (hg ++ List.replicate (8 - hg.length - tg.length) 0 ++ tg)
      else none
    | _, _ => none
  | none =>
    match parseTailGroups (splitOnChar ':' s) with
    | some gs => if gs.length = 8 then segsToIpv6 gs else none
    | none => none

/-- Model of std IpAddr::from_str: try IPv4 first, then IPv6. -/
def parseIpAddr (s : List Char) : Except AddrParseError IpAddr :=
  match parseIpv4 s with
  | some a => .ok (.v4 a)
  | none =>
    match parseIpv6 s with
    | some a => .ok (.v6 a)
    | none => .error .invalid

/-- Model of std Display for Ipv4Addr: dotted decimal. -/
def ipv4ToString (a : Ipv4Addr) : String :=
  Nat.repr a.o1 ++ "." ++ Nat.repr a.o2 ++ "." ++ Nat.repr a.o3 ++ "." ++ Nat.repr a.o4

/-- Lowercase hexadecimal rendering of one IPv6 group. -/
def natToHexString (n : Nat) : String := (Nat.toDigits 16 n).asString

/-- Length of the run of zero segments starting at index i. -/
def zeroRunAt (segs : List Nat) (i : Nat) : Nat :=
  ((segs.drop i).takeWhile (fun n => n == 0)).length

/-- Leftmost longest run of zero segments, as (start, length). -/
def longestZeroRun (segs : List Nat) : Nat × Nat :=
  (List.range segs.length).foldl
    (fun best i =>
      let len := zeroRunAt segs i
      if len > best.2 then (i, len) else best)
    (0, 0)

/-- Model of std Display for Ipv6Addr: the IPv4-mapped special case, then
compression of the leftmost longest run of at least two zero groups. -/
def ipv6ToString (a : Ipv6Addr) : String :=
  if a.s1 = 0 ∧ a.s2 = 0 ∧ a.s3 = 0 ∧ a.s4 = 0 ∧ a.s5 = 0 ∧ a.s6 = 65535 then
    "::ffff:" ++ ipv4ToString ⟨a.s7 / 256, a.s7 % 256, a.s8 / 256, a.s8 % 256⟩
  else
    let segs := [a.s1, a.s2, a.s3, a.s4, a.s5, a.s6, a.s7, a.s8]
    let z := longestZeroRun segs
    if z.2 > 1 then
      String.intercalate ":" ((segs.take z.1).map natToHexString) ++ "::" ++
        String.intercalate ":" ((segs.drop (z.1 + z.2)).map natToHexString)
    else
      String.intercalate ":" (segs.map natToHexString)

/-- Model of std Display for IpAddr. -/
def ipAddrToString : IpAddr → String
  | .v4 a => ipv4ToString a
  | .v6 a => ipv6ToString a

/- ===== utils.rs: CidrAddress ===== -/

/-- CidrAddressParseError of utils.rs. -/
inductive CidrAddressParseError
  | noDelimiter
  | invalidAddr (e : AddrParseError)
  | invalidMask (e : Option ParseIntError)
deriving DecidableEq

/-- CidrAddress of utils.rs: an IP address plus a prefix length (usize). -/
structure CidrAddress where
  addr : IpAddr
  mask : Nat
deriving DecidableEq

/-- CidrAddress::new of utils.rs. -/
def CidrAddress.new (addr : IpAddr) (mask : Nat) :
    Except CidrAddressParseError CidrAddress :=
  if mask > 32 then .error (.invalidMask none) else .ok ⟨addr, mask⟩

/-- Model of str::split_once: split at the first occurrence of the
separator, none when the separator does not occur. -/
def splitOnce (sep : Char) : List Char → Option (List Char × List Char)
  | [] => none
  | c :: cs =>
    if c = sep then some ([], cs)
    else (splitOnce sep cs).map (fun p => (c :: p.1, p.2))

/-- FromStr for CidrAddress of utils.rs: split on the first slash, parse the
mask as usize (wrapping a parse failure), reject masks above 32, then parse
the address part. -/
def CidrAddress.from_str (s : String) : Except CidrAddressParseError CidrAddress :=
  match splitOnce '/' s.data with
  | none => .error .noDelimiter
  | some (addrPart, maskPart) =>
    match parseUsize maskPart with
    | .error e => .error (.invalidMask (some e))
    | .ok mask =>
      if mask > 32 then .error (.invalidMask none)
      else
        match parseIpAddr addrPart with
        | .error e => .error (.invalidAddr e)
        | .ok addr => .ok ⟨addr, mask⟩

/-- Display for CidrAddress of utils.rs: address, slash, mask. -/
def CidrAddress.display (c : CidrAddress) : String :=
  ipAddrToString c.addr ++ "/" ++ Nat.repr c.mask

/- ===== options.rs ===== -/

/-- FsType of options.rs. -/
inductive FsType
  | ext4
  | xfs
deriving DecidableEq

/-- Display for FsType of options.rs. -/
def FsType.display : FsType → String
  | .ext4 => "ext4"
  | .xfs => "XFS"

/-- Disk of options.rs: path plus byte size (u64). -/
structure Disk where
  path : String
  size : Nat
deriving DecidableEq

/-- Display for Disk of options.rs. -/
def Disk.display (d : Disk) : String :=
  d.path ++ " (" ++ Nat.repr d.size ++ " B)"

/-- LvmBootdiskOptions of options.rs. -/
structure LvmBootdiskOptions where
  disk : Disk
  total_size : Nat
  swap_size : Nat
  max_root_size : Nat
  max_data_size : Nat
  min_lvm_free : Nat
deriving DecidableEq

/-- LvmBootdiskOptions::defaults_from of options.rs. -/
def LvmBootdiskOptions.defaults_from (disk : Disk) : LvmBootdiskOptions :=
  let min_lvm_free :=
    if disk.size > 128 * 1024 * 1024 then 16 * 1024 * 1024 else disk.size / 8
  { disk := disk
    total_size := disk.size
    swap_size := 4 * 1024 * 1024
    max_root_size := 0
    max_data_size := 0
    min_lvm_free := min_lvm_free }

/-- AdvancedBootdiskOptions of options.rs: one variant today. -/
inductive AdvancedBootdiskOptions
  | lvm (o : LvmBootdiskOptions)
deriving DecidableEq

/-- AdvancedBootdiskOptions::selected_disks of options.rs; the iterator is
modelled as the list of disks it yields. -/
def AdvancedBootdiskOptions.selected_disks : AdvancedBootdiskOptions → List Disk
  | .lvm o => [o.disk]

/-- BootdiskOptions of options.rs. -/
structure BootdiskOptions where
  disks : List Disk
  fstype : FsType
  advanced : AdvancedBootdiskOptions

/-- TimezoneOptions of options.rs. -/
structure TimezoneOptions where
  timezone : String
  kb_layout : String
deriving DecidableEq

/-- Default for TimezoneOptions of options.rs. -/
def TimezoneOptions.default : TimezoneOptions :=
  { timezone := "Europe/Vienna", kb_layout := "en_US" }

/-- PasswordOptions of options.rs. -/
structure PasswordOptions where
  email : String
  root_password : String
deriving DecidableEq

/-- Default for PasswordOptions of options.rs. -/
def PasswordOptions.default : PasswordOptions :=
  { email := "mail@example.invalid", root_password := "" }

/-- NetworkOptions of options.rs. -/
structure NetworkOptions where
  ifname : String
  fqdn : String
  address : CidrAddress
  gateway : IpAddr
  dns_server : IpAddr

/-- Default for NetworkOptions of options.rs; the unwrap on the
CidrAddress::new result is modelled as none on the panic path. -/
def NetworkOptions.defaultOption : Option NetworkOptions :=
  match CidrAddress.new (.v4 Ipv4Addr.unspecified) 0 with
  | .ok a =>
    some
      { ifname := ""
        fqdn := "pve.example.invalid"
        address := a
        gateway := .v4 Ipv4Addr.unspecified
        dns_server := .v4 Ipv4Addr.unspecified }
  | .error _ => none

/-- InstallerOptions of options.rs. -/
structure InstallerOptions where
  bootdisk : BootdiskOptions
  timezone : TimezoneOptions
  password : PasswordOptions
  network : NetworkOptions

/-- Modelled from the spec: SummaryOption is declared at the crate root
(main.rs), which is not part of the given sources; the spec describes the
summary rows as (label, value) pairs of rendered text. -/
structure SummaryOption where
  label : String
  value : String
deriving DecidableEq

/-- Modelled from the spec: SummaryOption::new pairs a label with a value. -/
def SummaryOption.new (label : String) (value : String) : SummaryOption :=
  ⟨label, value⟩

/-- InstallerOptions::to_summary of options.rs. -/
def InstallerOptions.to_summary (o : InstallerOptions) : List SummaryOption :=
  [ SummaryOption.new "Bootdisk filesystem" o.bootdisk.fstype.display,
    SummaryOption.new "Bootdisks"
      (String.intercalate ", " (o.bootdisk.advanced.selected_disks.map Disk.path)),
    SummaryOption.new "Timezone" o.timezone.timezone,
    SummaryOption.new "Keyboard layout" o.timezone.kb_layout,
    SummaryOption.new "Administator email:" o.password.email,
    SummaryOption.new "Management interface:" o.network.ifname,
    SummaryOption.new "Hostname:" o.network.fqdn,
    SummaryOption.new "Host IP (CIDR):" o.network.address.display,
    SummaryOption.new "Gateway" (ipAddrToString o.network.gateway),
    SummaryOption.new "DNS:" (ipAddrToString o.network.dns_server) ]

/- ===== Helper lemmas ===== -/

theorem splitOnce_eq_none (sep : Char) (s : List Char) (h : sep ∉ s) :
    splitOnce sep s = none := by
  induction s with
  | nil => rfl
  | cons c cs ih =>
    have hc : ¬ (c = sep) := by
      intro hc
      exact h (hc ▸ List.mem_cons_self c cs)
    have hcs : sep ∉ cs := fun hm => h (List.mem_cons_of_mem c hm)
    simp [splitOnce, hc, ih hcs]

theorem splitOnce_append (sep : Char) (s r : List Char) (h : sep ∉ s) :
    splitOnce sep (s ++ sep :: r) = some (s, r) := by
  induction s with
  | nil => simp [splitOnce]
  | cons c cs ih =>
    have hc : ¬ (c = sep) := by
      intro hc
      exact h (hc ▸ List.mem_cons_self c cs)
    have hcs : sep ∉ cs := fun hm => h (List.mem_cons_of_mem c hm)
    simp [splitOnce, hc, ih hcs]

theorem splitOnChar_not_mem (sep : Char) (s : List Char) (h : sep ∉ s) :
    splitOnChar sep s = [s] := by
  induction s with
  | nil => rfl
  | cons c cs ih =>
    have hc : ¬ (c = sep) := by
      intro hc
      exact h (hc ▸ List.mem_cons_self c cs)
    have hcs : sep ∉ cs := fun hm => h (List.mem_cons_of_mem c hm)
    simp [splitOnChar, hc, ih hcs]

theorem splitOnChar_append (sep : Char) (s r : List Char) (h : sep ∉ s) :
    splitOnChar sep (s ++ sep :: r) = s :: splitOnChar sep r := by
  induction s with
  | nil => simp [splitOnChar]
  | cons c cs ih =>
    have hc : ¬ (c = sep) := by
      intro hc
      exact h (hc ▸ List.mem_cons_self c cs)
    have hcs : sep ∉ cs := fun hm => h (List.mem_cons_of_mem c hm)
    simp [splitOnChar, hc, ih hcs]

set_option maxRecDepth 8000 in
theorem repr_octet_spec :
    ∀ n, n < 256 →
      parseOctetStr (Nat.repr n).data = some n ∧
      '.' ∉ (Nat.repr n).data ∧ '/' ∉ (Nat.repr n).data := by
  decide

set_option maxRecDepth 8000 in
theorem repr_mask_spec : ∀ n, n < 33 → parseUsize (Nat.repr n).data = Except.ok n := by
  decide

theorem ipv4ToString_data (x : Ipv4Addr) :
    (ipv4ToString x).data =
      (Nat.repr x.o1).data ++ '.' ::
        ((Nat.repr x.o2).data ++ '.' :: ((Nat.repr x.o3).data ++ '.' :: (Nat.repr x.o4).data)) := by
  simp [ipv4ToString, String.data_append]

theorem parseIpv4_roundtrip (x : Ipv4Addr)
    (h1 : x.o1 < 256) (h2 : x.o2 < 256) (h3 : x.o3 < 256) (h4 : x.o4 < 256) :
    parseIpv4 (ipv4ToString x).data = some x := by
  obtain ⟨p1, d1, _⟩ := repr_octet_spec x.o1 h1
  obtain ⟨p2, d2, _⟩ := repr_octet_spec x.o2 h2
  obtain ⟨p3, d3, _⟩ := repr_octet_spec x.o3 h3
  obtain ⟨p4, d4, _⟩ := repr_octet_spec x.o4 h4
  have hs : splitOnChar '.' (ipv4ToString x).data =
      [(Nat.repr x.o1).data, (Nat.repr x.o2).data, (Nat.repr x.o3).data, (Nat.repr x.o4).data] := by
    rw [ipv4ToString_data, splitOnChar_append _ _ _ d1, splitOnChar_append _ _ _ d2,
      splitOnChar_append _ _ _ d3, splitOnChar_not_mem _ _ d4]
  simp [parseIpv4, hs, p1, p2, p3, p4]

theorem slash_not_mem_ipv4ToString (x : Ipv4Addr)
    (h1 : x.o1 < 256) (h2 : x.o2 < 256) (h3 : x.o3 < 256) (h4 : x.o4 < 256) :
    '/' ∉ (ipv4ToString x).data := by
  obtain ⟨_, _, s1⟩ := repr_octet_spec x.o1 h1
  obtain ⟨_, _, s2⟩ := repr_octet_spec x.o2 h2
  obtain ⟨_, _, s3⟩ := repr_octet_spec x.o3 h3
  obtain ⟨_, _, s4⟩ := repr_octet_spec x.o4 h4
  rw [ipv4ToString_data]
  simp [List.mem_append, List.mem_cons, s1, s2, s3, s4]

/- ===== Claim theorems ===== -/

/-- C1: defaults_from reserves a fixed 16 MiB of minimum LVM free space when
the disk size exceeds 128 MiB and size / 8 (integer division) otherwise; at
a size of exactly 128 MiB the size is not above the threshold, and the two
tiers coincide at 16 MiB. -/
theorem C1_min_lvm_free_tiers :
    (∀ d : Disk, (LvmBootdiskOptions.defaults_from d).min_lvm_free =
      if d.size > 128 * 1024 * 1024 then 16 * 1024 * 1024 else d.size / 8) ∧
    (∀ p : String, ¬ ((Disk.mk p (128 * 1024 * 1024)).size > 128 * 1024 * 1024)) ∧
    (∀ p : String,
      (LvmBootdiskOptions.defaults_from ⟨p, 128 * 1024 * 1024⟩).min_lvm_free =
        16 * 1024 * 1024) := by
  refine ⟨fun d => rfl, fun p => by norm_num, fun p => ?_⟩
  norm_num [LvmBootdiskOptions.defaults_from]

/-- C2: for every canonically formatted IPv4 address and every mask of at
most 32, parsing the slash-joined string succeeds and displaying the result
reproduces the input exactly. -/
theorem C2_parse_display_roundtrip (x : Ipv4Addr) (n : Nat)
    (h1 : x.o1 < 256) (h2 : x.o2 < 256) (h3 : x.o3 < 256) (h4 : x.o4 < 256)
    (hn : n ≤ 32) :
    CidrAddress.from_str (ipv4ToString x ++ "/" ++ Nat.repr n) =
      Except.ok ⟨IpAddr.v4 x, n⟩ ∧
    CidrAddress.display ⟨IpAddr.v4 x, n⟩ = ipv4ToString x ++ "/" ++ Nat.repr n := by
  have hslash := slash_not_mem_ipv4ToString x h1 h2 h3 h4
  have hmask := repr_mask_spec n (by omega)
  have hip := parseIpv4_roundtrip x h1 h2 h3 h4
  have hsplit : splitOnce '/' ((ipv4ToString x).data ++ '/' :: (Nat.repr n).data) =
      some ((ipv4ToString x).data, (Nat.repr n).data) :=
    splitOnce_append _ _ _ hslash
  constructor
  · simp [CidrAddress.from_str, hsplit, hmask, Nat.not_lt.mpr hn, parseIpAddr, hip]
  · rfl

/-- C2 witness: the round trip at the concrete input 192.168.0.1/24. -/
theorem C2_parse_display_roundtrip_witness :
    CidrAddress.from_str "192.168.0.1/24" =
      Except.ok ⟨IpAddr.v4 ⟨192, 168, 0, 1⟩, 24⟩ ∧
    CidrAddress.display ⟨IpAddr.v4 ⟨192, 168, 0, 1⟩, 24⟩ = "192.168.0.1/24" := by
  have h := C2_parse_display_roundtrip ⟨192, 168, 0, 1⟩ 24
    (by decide) (by decide) (by decide) (by decide) (by decide)
  have hs : ipv4ToString ⟨192, 168, 0, 1⟩ ++ "/" ++ Nat.repr 24 = "192.168.0.1/24" := by
    decide
  rw [hs] at h
  exact h

/-- C3 counterexample: at n equal to 2 to the 64th, above the usize range,
parsing the mask fails with the wrapped overflow error, so the claim that an
over-32 mask never produces the wrapped-parse-error variant is false. -/
theorem C3_counterexample :
    CidrAddress.from_str "0.0.0.0/18446744073709551616" =
      Except.error (.invalidMask (some .posOverflow)) ∧
    CidrAddress.from_str "0.0.0.0/18446744073709551616" ≠
      Except.error (.invalidMask none) := by
  decide

/-- C3 amended: for every usize mask n above 32, new fails with the bare
mask-range error; for mask at most 32 new succeeds regardless of address
family; parsing a slash-joined string whose mask part parses as a usize n
above 32 fails with the bare mask-range error; and when the mask part does
not parse as a usize at all the failure carries the wrapped parse error. -/
theorem C3_mask_bound_amended :
    (∀ (addr : IpAddr) (n : Nat), n < 2 ^ 64 → 32 < n →
      CidrAddress.new addr n = Except.error (.invalidMask none)) ∧
    (∀ (addr : IpAddr) (n : Nat), n ≤ 32 →
      CidrAddress.new addr n = Except.ok ⟨addr, n⟩) ∧
    (∀ (s r : String) (n : Nat), '/' ∉ s.data →
      parseUsize r.data = Except.ok n → 32 < n →
      CidrAddress.from_str (s ++ "/" ++ r) = Except.error (.invalidMask none)) ∧
    (∀ (s r : String) (e : ParseIntError), '/' ∉ s.data →
      parseUsize r.data = Except.error e →
      CidrAddress.from_str (s ++ "/" ++ r) = Except.error (.invalidMask (some e))) := by
  refine ⟨?_, ?_, ?_, ?_⟩
  · intro addr n _ hn
    simp [CidrAddress.new, hn]
  · intro addr n hn
    simp [CidrAddress.new, Nat.not_lt.mpr hn]
  · intro s r n hs hr hn
    have hsplit : splitOnce '/' (s.data ++ '/' :: r.data) = some (s.data, r.data) :=
      splitOnce_append _ _ _ hs
    simp [CidrAddress.from_str, hsplit, hr, hn]
  · intro s r e hs hr
    have hsplit : splitOnce '/' (s.data ++ '/' :: r.data) = some (s.data, r.data) :=
      splitOnce_append _ _ _ hs
    simp [CidrAddress.from_str, hsplit, hr]

/-- C3 witness: the amended statement at masks 33, 32, 40 and at an
unparsable mask part. -/
theorem C3_mask_bound_amended_witness :
    CidrAddress.new (IpAddr.v4 ⟨1, 2, 3, 4⟩) 33 = Except.error (.invalidMask none) ∧
    CidrAddress.new (IpAddr.v6 ⟨0, 0, 0, 0, 0, 0, 0, 1⟩) 32 =
      Except.ok ⟨IpAddr.v6 ⟨0, 0, 0, 0, 0, 0, 0, 1⟩, 32⟩ ∧
    CidrAddress.from_str ("10.0.0.1" ++ "/" ++ "40") =
      Except.error (.invalidMask none) ∧
    CidrAddress.from_str ("10.0.0.1" ++ "/" ++ "4x") =
      Except.error (.invalidMask (some .invalidDigit)) :=
  ⟨C3_mask_bound_amended.1 _ 33 (by norm_num) (by norm_num),
   C3_mask_bound_amended.2.1 _ 32 (by norm_num),
   C3_mask_bound_amended.2.2.1 "10.0.0.1" "40" 40 (by decide) (by decide) (by decide),
   C3_mask_bound_amended.2.2.2 "10.0.0.1" "4x" .invalidDigit (by decide) (by decide)⟩

/-- C4 counterexample: the input not-an-ip/99 contains a slash and its left
part is not a valid IP literal, yet parsing fails with the mask-range error
rather than the invalid-address error, because the mask is checked first. -/
theorem C4_counterexample :
    ('/' ∈ "not-an-ip/99".data) ∧
    splitOnce '/' "not-an-ip/99".data = some ("not-an-ip".data, "99".data) ∧
    parseIpAddr "not-an-ip".data = Except.error .invalid ∧
    CidrAddress.from_str "not-an-ip/99" = Except.error (.invalidMask none) := by
  decide

/-- C4 amended: when the mask part parses as a usize of at most 32 and the
left part is not a valid IP literal, parsing fails with the invalid-address
error wrapping the underlying failure; in particular not-an-ip/24 fails with
the invalid-address error. -/
theorem C4_invalid_addr_amended :
    (∀ (s : String) (l r : List Char) (n : Nat) (e : AddrParseError),
      splitOnce '/' s.data = some (l, r) →
      parseUsize r = Except.ok n → n ≤ 32 →
      parseIpAddr l = Except.error e →
      CidrAddress.from_str s = Except.error (.invalidAddr e)) ∧
    CidrAddress.from_str "not-an-ip/24" = Except.error (.invalidAddr .invalid) := by
  constructor
  · intro s l r n e hsplit hr hn he
    simp [CidrAddress.from_str, hsplit, hr, Nat.not_lt.mpr hn, he]
  · decide

/-- C4 witness: the amended conditional at the concrete input
hello world/0. -/
theorem C4_invalid_addr_amended_witness :
    CidrAddress.from_str "hello world/0" = Except.error (.invalidAddr .invalid) :=
  C4_invalid_addr_amended.1 "hello world/0" "hello world".data "0".data 0 .invalid
    (by decide) (by decide) (by decide) (by decide)

/-- C5: every input without a slash fails with the no-delimiter error,
regardless of content. -/
theorem C5_no_delimiter (s : String) (h : '/' ∉ s.data) :
    CidrAddress.from_str s = Except.error .noDelimiter := by
  simp [CidrAddress.from_str, splitOnce_eq_none '/' s.data h]

/-- C5 witness: the slash-free input hello. -/
theorem C5_no_delimiter_witness :
    CidrAddress.from_str "hello" = Except.error .noDelimiter :=
  C5_no_delimiter "hello" (by decide)

/-- C6: defaults_from copies the disk size into total_size, fixes swap_size
at 4 MiB independent of the disk, and leaves the root and data caps at the
sentinel 0. -/
theorem C6_defaults_fixed_fields (d : Disk) :
    (LvmBootdiskOptions.defaults_from d).total_size = d.size ∧
    (LvmBootdiskOptions.defaults_from d).swap_size = 4 * 1024 * 1024 ∧
    (LvmBootdiskOptions.defaults_from d).max_root_size = 0 ∧
    (LvmBootdiskOptions.defaults_from d).max_data_size = 0 :=
  ⟨rfl, rfl, rfl, rfl⟩

/-- C7: to_summary always yields exactly ten rows, in the fixed order, with
the fixed labels and each value rendered from the owning option group:
filesystem display, selected disk paths joined by a comma and space, the
timezone and keyboard strings, the email, the interface name, the FQDN, the
address in CIDR display form, and the displayed gateway and DNS addresses. -/
theorem C7_summary_rows (o : InstallerOptions) :
    o.to_summary.length = 10 ∧
    o.to_summary.map SummaryOption.label =
      ["Bootdisk filesystem", "Bootdisks", "Timezone", "Keyboard layout",
       "Administator email:", "Management interface:", "Hostname:",
       "Host IP (CIDR):", "Gateway", "DNS:"] ∧
    o.to_summary.map SummaryOption.value =
      [o.bootdisk.fstype.display,
       String.intercalate ", " (o.bootdisk.advanced.selected_disks.map Disk.path),
       o.timezone.timezone,
       o.timezone.kb_layout,
       o.password.email,
       o.network.ifname,
       o.network.fqdn,
       o.network.address.display,
       ipAddrToString o.network.gateway,
       ipAddrToString o.network.dns_server] :=
  ⟨rfl, rfl, rfl⟩

/-- C8: for the Lvm variant, selected_disks yields exactly the one disk the
options value was built around. -/
theorem C8_selected_disks_lvm (o : LvmBootdiskOptions) :
    (AdvancedBootdiskOptions.lvm o).selected_disks = [o.disk] :=
  rfl

/-- C9: the defaulted NetworkOptions displays its address as 0.0.0.0/0 and
its gateway and DNS server as 0.0.0.0, and the defaulted TimezoneOptions
holds Europe/Vienna and en_US. -/
theorem C9_default_values :
    (NetworkOptions.defaultOption.map fun o =>
      (o.address.display, ipAddrToString o.gateway, ipAddrToString o.dns_server)) =
      some ("0.0.0.0/0", "0.0.0.0", "0.0.0.0") ∧
    TimezoneOptions.default.timezone = "Europe/Vienna" ∧
    TimezoneOptions.default.kb_layout = "en_US" := by
  decide

/-- C10: the CidrAddress::new call inside the NetworkOptions default
succeeds because mask 0 is within the bound, so the unwrap never panics and
the default is always produced. -/
theorem C10_default_never_panics :
    CidrAddress.new (IpAddr.v4 Ipv4Addr.unspecified) 0 =
      Except.ok ⟨IpAddr.v4 Ipv4Addr.unspecified, 0⟩ ∧
    NetworkOptions.defaultOption.isSome = true := by
  decide
